import Mathlib

/-!
Shallow embedding of the geospatial-lookup helpers
(`geohelpers.py` and the orchestration in `main.py`).

Dataframes are modelled as Lean lists: a dataset of rows is a `List` of
rows (row order is the dataframe order, `reset_index(drop=True)` is the
identity on this representation), and a dataframe viewed as a collection
of named columns is an association list from column name to column
content.  Python `float` arithmetic is modelled by exact rationals `ℚ`;
machine integers by `ℤ`/`ℕ`.  Fallible Python code is modelled in the
`Except` monad over a type of Python exceptions.  File input/output
(reading the tsv inputs, writing the json outputs, `os.mkdir`) is outside
the model; the modelled fragment of `save_data` is its column
selection/renaming logic together with the dataframe it both saves and
returns.
-/

namespace GeoLookup

/-- The Python exception kinds raised by the modelled code paths. -/
inductive PyExc where
  | typeError : String → PyExc
  | valueError : String → PyExc
  | attributeError : String → PyExc
  | keyError : String → PyExc
deriving DecidableEq, Repr

/-- Python values that flow into the modelled numeric arguments
(`chunksize`, `accuracy_m`): `None`, an `int`, a `float` (modelled as an
exact rational), or a `str`. -/
inductive PyVal where
  | vNone : PyVal
  | vInt : ℤ → PyVal
  | vFloat : ℚ → PyVal
  | vStr : String → PyVal
deriving DecidableEq, Repr

/-- Truncation toward zero, the behaviour of Python `int()` on a float
and of numpy `.astype(int)`. -/
def pyTrunc (q : ℚ) : ℤ :=
  if q < 0 then ⌈q⌉ else ⌊q⌋

/-- Decimal parsing of a digit string, as done by Python `int(str)`:
`none` when the string is empty or contains a non-digit. -/
def pyStrToNat? (cs : List Char) : Option ℕ :=
  if cs = [] then none
  else cs.foldl
    (fun acc c => acc.bind fun n =>
      if c.isDigit then some (10 * n + (c.toNat - 48)) else none)
    (some 0)

/-- Python `int(str)`: an optional leading minus sign followed by
decimal digits (further Python niceties such as surrounding whitespace
or underscores are not modelled). -/
def pyStrToInt? (s : String) : Option ℤ :=
  match s.data with
  | '-' :: rest => (pyStrToNat? rest).map fun n => -(n : ℤ)
  | cs => (pyStrToNat? cs).map fun n => (n : ℤ)

/-- Python `int(x)`: the identity on ints, truncation toward zero on
floats, decimal parsing on strings (a non-numeric string raises
`ValueError`), and `TypeError` on `None`. -/
def pyInt (v : PyVal) : Except PyExc ℤ :=
  match v with
  | .vNone => .error (.typeError "int() argument must be a string, a bytes-like object or a real number, not NoneType")
  | .vInt n => .ok n
  | .vFloat q => .ok (pyTrunc q)
  | .vStr s =>
    match pyStrToInt? s with
    | some n => .ok n
    | none => .error (.valueError ("invalid literal for int() with base 10: " ++ s))

/-- `_check_chunksize(chunksize, df_size)` from geohelpers.py: try
`int(chunksize)`; only a `TypeError` (e.g. `chunksize=None`) is caught
and replaced by the adaptive default `min(max(df_size//50, 5000), 60000)`;
any other exception of the conversion (e.g. `ValueError` on a non-numeric
string) propagates. -/
def _check_chunksize (chunksize : PyVal) (df_size : ℕ) : Except PyExc ℤ :=
  match pyInt chunksize with
  | .ok n => .ok n
  | .error (.typeError _) => .ok ((min (max (df_size / 50) 5000) 60000 : ℕ) : ℤ)
  | .error e => .error e

/-- `cartesian_product(lats, longs)` from geohelpers.py, at the arity
used by `_generate_smaller_grid`.  `np.meshgrid(lats, longs)` (default
'xy' indexing) returns arrays of shape `(len(longs), len(lats))` whose
entry `[i, j]` is `(lats[j], longs[i])`; stacking on the last axis and
reshaping to `(-1, 2)` in C order therefore lists the pairs with the
second array in the outer loop and the first array in the inner loop.
The function only rearranges its inputs, so it is modelled
polymorphically in the element types. -/
def cartesian_product (lats : List α) (longs : List β) : List (α × β) :=
  longs.flatMap fun lo => lats.map fun la => (la, lo)

/-- Section sizes used by `np.array_split(arr, n)`: `len % n` sections of
size `len / n + 1` followed by `n - len % n` sections of size `len / n`. -/
def arraySplitSizes (len n : ℕ) : List ℕ :=
  List.replicate (len % n) (len / n + 1) ++ List.replicate (n - len % n) (len / n)

/-- Cut a list into consecutive sections of the given sizes (sections
past the end of the list come out empty, as in numpy). -/
def splitBySizes : List ℕ → List α → List (List α)
  | [], _ => []
  | s :: ss, l => l.take s :: splitBySizes ss (l.drop s)

/-- `np.array_split(l, n)`. -/
def array_split (l : List α) (n : ℕ) : List (List α) :=
  splitBySizes (arraySplitSizes l.length n) l

/-- `_generate_smaller_grid(lats, longs, accuracy_m, verbose)` from
geohelpers.py.  If the larger axis has at least 1500 elements it is cut
by `np.array_split` into `len // 100` sections, the function recurses on
each section, and the resulting frames are concatenated in section
order; otherwise the direct `cartesian_product` is taken.  The
`accuracy_m` and `verbose` parameters only feed progress printing and
are omitted from the model. -/
def _generate_smaller_grid (lats longs : List α) : List (α × α) :=
  if 1500 ≤ max lats.length longs.length then
    if longs.length < lats.length then
      ((array_split lats (lats.length / 100)).attach.map
        (fun c => _generate_smaller_grid c.1 longs)).flatten
    else
      ((array_split longs (longs.length / 100)).attach.map
        (fun c => _generate_smaller_grid lats c.1)).flatten
  else
    cartesian_product lats longs
termination_by lats.length + longs.length
decreasing_by
  all_goals
    rename_i hmax hcmp
    have key : ∀ (sizes : List ℕ) (l : List α) (cc : List α),
        cc ∈ splitBySizes sizes l → ∃ s ∈ sizes, cc.length ≤ s := by
      intro sizes
      induction sizes with
      | nil => intro l cc hcc; simp [splitBySizes] at hcc
      | cons s ss ih =>
        intro l cc hcc
        simp only [splitBySizes, List.mem_cons] at hcc
        rcases hcc with rfl | hcc
        · exact ⟨s, List.mem_cons_self .., List.length_take_le s l⟩
        · obtain ⟨t, ht, hle⟩ := ih (l.drop s) cc hcc
          exact ⟨t, List.mem_cons_of_mem _ ht, hle⟩
  · obtain ⟨s, hs, hcs⟩ := key _ _ _ c.2
    have hs' : s ≤ lats.length / (lats.length / 100) + 1 := by
      simp only [arraySplitSizes, List.mem_append, List.mem_replicate] at hs
      rcases hs with ⟨-, rfl⟩ | ⟨-, rfl⟩ <;> omega
    have hlen : 1500 ≤ lats.length := by omega
    have h2 : 2 ≤ lats.length / 100 := by omega
    have hdiv : lats.length / (lats.length / 100) ≤ lats.length / 2 :=
      Nat.div_le_div_left h2 (by omega)
    have := Nat.div_le_self lats.length 2
    omega
  · obtain ⟨s, hs, hcs⟩ := key _ _ _ c.2
    have hs' : s ≤ longs.length / (longs.length / 100) + 1 := by
      simp only [arraySplitSizes, List.mem_append, List.mem_replicate] at hs
      rcases hs with ⟨-, rfl⟩ | ⟨-, rfl⟩ <;> omega
    have hlen : 1500 ≤ longs.length := by omega
    have h2 : 2 ≤ longs.length / 100 := by omega
    have hdiv : longs.length / (longs.length / 100) ≤ longs.length / 2 :=
      Nat.div_le_div_left h2 (by omega)
    have := Nat.div_le_self longs.length 2
    omega

/-- The accuracies accepted by `generate_grid`:
`(10**x for x in range(6))`. -/
def validAccuracies : List ℤ := [1, 10, 100, 1000, 10000, 100000]

/-- `np.min` over a would-be float array: raises on an empty input. -/
def np_min (l : List ℚ) : Except PyExc ℚ :=
  match l with
  | [] => .error (.valueError "zero-size array to reduction operation minimum which has no identity")
  | x :: xs => .ok (xs.foldl min x)

/-- `np.max` over a would-be float array: raises on an empty input. -/
def np_max (l : List ℚ) : Except PyExc ℚ :=
  match l with
  | [] => .error (.valueError "zero-size array to reduction operation maximum which has no identity")
  | x :: xs => .ok (xs.foldl max x)

/-- `np.arange(lo, hi, step)` for a positive rational step: the values
`lo + k * step` for `0 ≤ k < ⌈(hi - lo) / step⌉`. -/
def np_arange (lo hi step : ℚ) : List ℚ :=
  (List.range (((hi - lo) / step).ceil.toNat)).map fun k => lo + k * step

/-- The `accuracy_m` validation at the top of `generate_grid`: the
`try` block applies `int(accuracy_m)` and raises `ValueError` when the
result is not a power of ten from 1 to 100000; `except Exception`
catches both that `ValueError` and any failure of `int()` itself and
re-raises a `ValueError` with the fixed message below. -/
def validate_accuracy (accuracy_m : PyVal) : Except PyExc ℤ :=
  match pyInt accuracy_m with
  | .ok n =>
    if n ∈ validAccuracies then .ok n
    else .error (.valueError "accuracy_m must be one of these values: (1,10,100,1000,10000,100000)")
  | .error _ => .error (.valueError "accuracy_m must be one of these values: (1,10,100,1000,10000,100000)")

/-- `generate_grid(lats, longs, accuracy_m, verbose)` from
geohelpers.py: validate `accuracy_m`, set `steps = accuracy_m/100000`,
replace each axis by `np.arange(min, max, steps)` and hand the axes to
`_generate_smaller_grid` (the final `reset_index(drop=True)` is the
identity in the list model). -/
def generate_grid (lats longs : List ℚ) (accuracy_m : PyVal) : Except PyExc (List (ℚ × ℚ)) := do
  let a ← validate_accuracy accuracy_m
  let steps : ℚ := (a : ℚ) / 100000
  let lo₁ ← np_min lats
  let hi₁ ← np_max lats
  let lo₂ ← np_min longs
  let hi₂ ← np_max longs
  .ok (_generate_smaller_grid (np_arange lo₁ hi₁ steps) (np_arange lo₂ hi₂ steps))

/-- Round half to even, the rounding mode of numpy/pandas `.round`. -/
def roundHalfEven (q : ℚ) : ℤ :=
  if q - ⌊q⌋ < 1/2 then ⌊q⌋
  else if 1/2 < q - ⌊q⌋ then ⌊q⌋ + 1
  else if Even ⌊q⌋ then ⌊q⌋ else ⌊q⌋ + 1

/-- pandas `Series.round(d)`: round half to even at `d` decimal places
(decimal floats modelled as exact rationals). -/
def roundTo (d : ℕ) (q : ℚ) : ℚ :=
  (roundHalfEven (q * 10 ^ d) : ℚ) / 10 ^ d

/-- The row-wise core of `generate_key` from geohelpers.py: round the
two coordinates to `round_level` decimal places and build
`str(int(lat*100000)) + ';' + str(int(long*100000))` from the rounded
values (`astype(int)` truncates toward zero). -/
def generate_key_row (round_level : ℕ) (lat long : ℚ) : String :=
  toString (pyTrunc (roundTo round_level lat * 100000)) ++ ";"
    ++ toString (pyTrunc (roundTo round_level long * 100000))

/-- `generate_key(df, accuracy_m, lats, longs)` from geohelpers.py over
a dataframe of (latitude, longitude) rows, at an already-computed
`round_level = int(5 - np.log10(accuracy_m))`: the returned frame has
the rounded coordinates written back over the coordinate columns and
the geokey column attached. -/
def generate_key (round_level : ℕ) (df : List (ℚ × ℚ)) : List (ℚ × ℚ × String) :=
  df.map fun r =>
    (roundTo round_level r.1, roundTo round_level r.2,
      generate_key_row round_level r.1 r.2)

/-- Consecutive blocks of `n` rows (the last block may be shorter).
For `chunksize > 0` this is what `df.groupby(np.arange(df.shape[0]) //
chunksize)` enumerates, since the keys `i // chunksize` are
nondecreasing in `i`: pandas groupby sorts groups by key and keeps the
within-group row order. -/
def blocksOf (n : ℕ) : List α → List (List α)
  | [] => []
  | x :: xs => (x :: xs.take (n - 1)) :: blocksOf n (xs.drop (n - 1))
termination_by l => l.length
decreasing_by
  simp only [List.length_drop, List.length_cons]
  omega

/-- `_chunker(df, chunksize)` from geohelpers.py: `if not chunksize`
(so `None` — modelled upstream by `_check_chunksize` — or `0`) the whole
frame is returned as a one-element list, otherwise the rows are grouped
by `index // chunksize`.  A negative chunksize never reaches this
function in the pipeline (`_check_chunksize` defaults are ≥ 5000) and
every claim below assumes a positive chunksize; the negative case is
conflated with the falsy case here. -/
def _chunker (chunksize : ℤ) (df : List α) : List (List α) :=
  if chunksize ≤ 0 then [df] else blocksOf chunksize.toNat df

/-- `do_join(points, geometries)` from geohelpers.py:
`gpd.sjoin(points, geometries, how='inner', op='within')` keeps one
output row per (point, containing polygon) pair, carrying the point's
attributes and the polygon's attributes, listed in left-frame row
order.  The point-in-polygon test itself is delegated to the external
geometry library and is modelled as an opaque boolean predicate
`within`. -/
def do_join (within : P → G → Bool) (points : List P) (geometries : List G) :
    List (P × G) :=
  points.flatMap fun p => (geometries.filter (fun g => within p g)).map fun g => (p, g)

/-- `locate_points(points, geometries, chunksize, verbose)` from
geohelpers.py: pass `chunksize` through `_check_chunksize`, cut the
points with `_chunker`, join every chunk with `do_join`, concatenate
the chunk results in chunk order with `pd.concat(results)` and reset
to a dense 0-based index (the reset is the identity in the list
model).  `pd.concat` raises `ValueError('No objects to concatenate')`
when `results` is an empty list, which happens exactly when the points
frame has zero rows and the effective chunksize is positive: grouping
an empty index yields zero groups, the chunk loop body never runs, and
`results` stays empty. -/
def locate_points (within : P → G → Bool) (points : List P) (geometries : List G)
    (chunksize : PyVal) : Except PyExc (List (P × G)) := do
  let cs ← _check_chunksize chunksize points.length
  let results := (_chunker cs points).map fun ch => do_join within ch geometries
  if results.isEmpty then .error (.valueError "No objects to concatenate")
  else .ok results.flatten

/-- The `columns` argument of `save_data`: `None`, a list, a dict
(modelled as an insertion-ordered association list, as Python dicts
preserve insertion order), or some other iterable of column names. -/
inductive ColumnsArg where
  | none : ColumnsArg
  | list : List String → ColumnsArg
  | dict : List (String × String) → ColumnsArg
  | other : List String → ColumnsArg

/-- pandas `df[ks]` on a frame seen as named columns: select the named
columns in the given order; a missing name raises `KeyError`. -/
def selectCols (df : List (String × α)) (ks : List String) :
    Except PyExc (List (String × α)) :=
  if ks.all fun k => (df.lookup k).isSome then
    .ok (ks.filterMap fun k => (df.lookup k).map fun v => (k, v))
  else
    .error (.keyError "columns not found in the dataframe")

/-- pandas `df.rename(columns=m)`: every column whose name is a key of
`m` is renamed to the corresponding value; other columns are kept. -/
def renameCols (m : List (String × String)) (df : List (String × α)) :
    List (String × α) :=
  df.map fun p => ((m.lookup p.1).getD p.1, p.2)

/-- The column logic of `save_data(df, filename, directory, columns)`
from geohelpers.py, returning the frame that is both serialized and
returned (the `os.mkdir`/`to_json` side effects are outside the model).
`if columns:` skips everything for a falsy argument (`None`, empty list
or empty dict); a dict selects `columns.keys()` and then renames with
the dict; a (non-empty) list matches neither `isinstance` fallthrough
branch nor the dict branch, so no column selection happens at all; any
other truthy iterable is materialized with `list(columns)` and
selected. -/
def save_data (df : List (String × α)) (columns : ColumnsArg) :
    Except PyExc (List (String × α)) :=
  match columns with
  | .none => .ok df
  | .list _ => .ok df
  | .dict m =>
    if m.isEmpty then .ok df
    else do
      let sel ← selectCols df (m.map Prod.fst)
      .ok (renameCols m sel)
  | .other ks =>
    if ks.isEmpty then .ok df
    else selectCols df ks

/-- The module-level names defined in geohelpers.py; `getattr` on the
module (any `gh.name` reference in main.py) succeeds exactly for
these. -/
def geohelpersAttrs : List String :=
  ["_check_chunksize", "cartesian_product", "generate_key",
   "generate_points_from_coordinates", "_generate_smaller_grid",
   "generate_grid", "_chunker", "do_join", "locate_points", "save_data",
   "process_dataframe"]

/-- Attribute resolution on the imported geohelpers module: a name the
module does not define raises `AttributeError`. -/
def getattrGeohelpers (name : String) : Except PyExc Unit :=
  if name ∈ geohelpersAttrs then .ok ()
  else .error (.attributeError ("module geohelpers has no attribute " ++ name))

/-- `process_data(accuracy_m, verbose)` from main.py, at the
granularity of its `gh.*` calls: load the raw inputs (file reading is
outside the model and assumed to succeed), generate the point grid over
`lats=[-35,-22]`, `longs=[16,33]`, then resolve and run the remaining
pipeline stages in source order.  Every `gh.X(...)` statement is
modelled by resolving the attribute `X` before anything else, since
Python evaluates `gh.X` before the call; the dataflow between the later
stages is elided because execution never reaches them.  `verbose` only
affects printing and is omitted. -/
def process_data (accuracy_m : PyVal) : Except PyExc Unit := do
  let _grid ← generate_grid [-35, -22] [16, 33] accuracy_m
  let _ ← getattrGeohelpers "check_grid"
  let _ ← getattrGeohelpers "process_dataframe"
  let _ ← getattrGeohelpers "check_grid"
  let _ ← getattrGeohelpers "save_data"
  let _ ← getattrGeohelpers "process_dataframe"
  let _ ← getattrGeohelpers "save_data"
  let _ ← getattrGeohelpers "process_dataframe"
  let _ ← getattrGeohelpers "save_data"
  .ok ()

/-! ### Generic helper lemmas -/

theorem except_bind_ok {ε α β : Type _} (a : α) (f : α → Except ε β) :
    ((Except.ok a : Except ε α) >>= f) = f a := rfl

theorem except_bind_error {ε α β : Type _} (e : ε) (f : α → Except ε β) :
    ((Except.error e : Except ε α) >>= f) = (.error e : Except ε β) := rfl

theorem except_isOk_ok {ε α : Type _} (a : α) :
    (Except.ok a : Except ε α).isOk = true := rfl

theorem except_isOk_error {ε α : Type _} (e : ε) :
    (Except.error e : Except ε α).isOk = false := rfl

/-! ### Helper lemmas about the chunker -/

theorem blocksOf_flatten {α : Type _} (n : ℕ) (l : List α) :
    (blocksOf n l).flatten = l := by
  generalize hN : l.length = N
  induction N using Nat.strong_induction_on generalizing l with
  | _ N ih =>
    match l with
    | [] => simp [blocksOf]
    | x :: xs =>
      rw [blocksOf]
      simp only [List.flatten_cons]
      rw [ih (xs.drop (n - 1)).length (by simp at hN ⊢; omega) _ rfl]
      simp [List.take_append_drop]

theorem blocksOf_length_le {α : Type _} (n : ℕ) (hn : 0 < n) (l : List α) :
    ∀ b ∈ blocksOf n l, b.length ≤ n := by
  generalize hN : l.length = N
  induction N using Nat.strong_induction_on generalizing l with
  | _ N ih =>
    match l with
    | [] => simp [blocksOf]
    | x :: xs =>
      rw [blocksOf]
      intro b hb
      rcases List.mem_cons.1 hb with rfl | hb
      · have := List.length_take_le (n - 1) xs
        simp only [List.length_cons]
        omega
      · exact ih (xs.drop (n - 1)).length (by simp at hN ⊢; omega) _ rfl b hb

theorem chunker_flatten {α : Type _} {C : ℤ} (hC : 0 < C) (l : List α) :
    (_chunker C l).flatten = l := by
  rw [_chunker, if_neg (by omega)]
  exact blocksOf_flatten _ _

theorem chunker_length_le {α : Type _} {C : ℤ} (hC : 0 < C) (l : List α) :
    ∀ b ∈ _chunker C l, b.length ≤ C.toNat := by
  rw [_chunker, if_neg (by omega)]
  exact blocksOf_length_le _ (by omega) _

theorem blocksOf_ne_nil {α : Type _} (n : ℕ) (x : α) (xs : List α) :
    blocksOf n (x :: xs) ≠ [] := by
  simp [blocksOf]

theorem chunker_nil {α : Type _} {C : ℤ} (hC : 0 < C) :
    _chunker C ([] : List α) = [] := by
  unfold _chunker
  rw [if_neg (by omega)]
  simp [blocksOf]

theorem chunker_ne_nil {α : Type _} (C : ℤ) (points : List α) (hne : points ≠ []) :
    _chunker C points ≠ [] := by
  unfold _chunker
  by_cases hc : C ≤ 0
  · rw [if_pos hc]
    simp
  · rw [if_neg hc]
    obtain ⟨x, xs, rfl⟩ := List.exists_cons_of_ne_nil hne
    exact blocksOf_ne_nil C.toNat x xs

/-! ### Helper lemmas about the join -/

theorem do_join_append {P G : Type _} (within : P → G → Bool) (l₁ l₂ : List P)
    (geometries : List G) :
    do_join within (l₁ ++ l₂) geometries =
      do_join within l₁ geometries ++ do_join within l₂ geometries :=
  List.flatMap_append ..

theorem do_join_flatten {P G : Type _} (within : P → G → Bool)
    (chunks : List (List P)) (geometries : List G) :
    (chunks.map fun ch => do_join within ch geometries).flatten =
      do_join within chunks.flatten geometries := by
  induction chunks with
  | nil => simp [do_join]
  | cons ch chs ih => simp [do_join_append, ih]

theorem locate_points_ok {P G : Type _} (within : P → G → Bool) (points : List P)
    (geometries : List G) (C : ℤ) (hC : 0 < C) (hne : points ≠ []) :
    locate_points within points geometries (.vInt C) =
      .ok (do_join within points geometries) := by
  have h : locate_points within points geometries (.vInt C) =
      if ((_chunker C points).map fun ch => do_join within ch geometries).isEmpty then
        (.error (.valueError "No objects to concatenate") : Except PyExc (List (P × G)))
      else
        .ok (((_chunker C points).map fun ch => do_join within ch geometries).flatten) := rfl
  have hne' : ¬(((_chunker C points).map
      fun ch => do_join within ch geometries).isEmpty = true) := by
    simp only [List.isEmpty_iff, List.map_eq_nil_iff]
    exact chunker_ne_nil C points hne
  rw [h, if_neg hne', do_join_flatten, chunker_flatten hC]

theorem locate_points_empty_err {P G : Type _} (within : P → G → Bool)
    (geometries : List G) (C : ℤ) (hC : 0 < C) :
    locate_points within ([] : List P) geometries (.vInt C) =
      .error (.valueError "No objects to concatenate") := by
  have h : locate_points within ([] : List P) geometries (.vInt C) =
      if ((_chunker C ([] : List P)).map fun ch => do_join within ch geometries).isEmpty then
        (.error (.valueError "No objects to concatenate") : Except PyExc (List (P × G)))
      else
        .ok (((_chunker C ([] : List P)).map
          fun ch => do_join within ch geometries).flatten) := rfl
  rw [h, chunker_nil hC]
  rfl

theorem mem_do_join {P G : Type _} {within : P → G → Bool} {points : List P}
    {geometries : List G} {r : P × G} :
    r ∈ do_join within points geometries ↔
      r.1 ∈ points ∧ r.2 ∈ geometries ∧ within r.1 r.2 = true := by
  cases r with
  | mk p g =>
    simp only [do_join, List.mem_flatMap, List.mem_map, List.mem_filter]
    constructor
    · rintro ⟨p', hp', g', ⟨hg', hw⟩, h⟩
      cases h
      exact ⟨hp', hg', hw⟩
    · rintro ⟨hp, hg, hw⟩
      exact ⟨p, hp, g, ⟨hg, hw⟩, rfl⟩

/-- C1 fails as universally stated: on a points dataset with zero rows
and a positive chunksize, `_chunker` produces zero groups, the chunk
loop never runs, and `pd.concat([])` raises
`ValueError('No objects to concatenate')` — whereas the single
unchunked inner within-join of zero points is simply the empty result,
so the chunked and unchunked computations do not agree there. -/
theorem locate_points_empty_counterexample :
    locate_points (fun (p : ℕ) (g : ℕ) => p == g) ([] : List ℕ) [2, 3] (.vInt 2) =
      .error (.valueError "No objects to concatenate") ∧
    do_join (fun (p : ℕ) (g : ℕ) => p == g) ([] : List ℕ) [2, 3] = [] :=
  ⟨locate_points_empty_err (fun (p : ℕ) (g : ℕ) => p == g) [2, 3] 2 (by decide), rfl⟩

/-- C1 (amended): for every NON-EMPTY points dataset, polygon dataset
and chunksize `C > 0`, `locate_points` (chunk with `_chunker`, join
every chunk with `do_join`, concatenate in chunk order, reset the
index) returns exactly the rows of the single unchunked inner
within-join of all points, and processing the chunks in any other
order still yields the same result multiset; on a points dataset with
zero rows, however, the chunker yields no chunks and `pd.concat([])`
raises `ValueError` instead of producing the (empty) unchunked
join. -/
theorem locate_points_refines_unchunked {P G : Type _} (within : P → G → Bool)
    (points : List P) (geometries : List G) (C : ℤ) (hC : 0 < C) :
    (points ≠ [] →
      locate_points within points geometries (.vInt C) =
        .ok (do_join within points geometries)) ∧
    (points = [] →
      locate_points within points geometries (.vInt C) =
        .error (.valueError "No objects to concatenate")) ∧
    ∀ chunks : List (List P), chunks.Perm (_chunker C points) →
      Multiset.ofList ((chunks.map fun ch => do_join within ch geometries).flatten) =
        Multiset.ofList (do_join within points geometries) := by
  refine ⟨fun hne => locate_points_ok within points geometries C hC hne,
    fun hnil => ?_, fun chunks hperm => ?_⟩
  · subst hnil
    exact locate_points_empty_err within geometries C hC
  · refine Multiset.coe_eq_coe.mpr (((hperm.map _).flatten).trans ?_)
    rw [do_join_flatten, chunker_flatten hC]

/-- Witness for the amended C1 at a concrete input. -/
theorem locate_points_refines_unchunked_witness :
    ((0 : ℤ) < 2 ∧ ([1, 2, 3] : List ℕ) ≠ []) ∧
      locate_points (fun (p : ℕ) (g : ℕ) => p == g) [1, 2, 3] [2, 3, 4] (.vInt 2) =
        .ok (do_join (fun (p : ℕ) (g : ℕ) => p == g) [1, 2, 3] [2, 3, 4]) :=
  ⟨⟨by decide, by decide⟩,
    (locate_points_refines_unchunked (fun (p : ℕ) (g : ℕ) => p == g)
      [1, 2, 3] [2, 3, 4] 2 (by decide)).1 (by decide)⟩

/-- C5: every row located by `locate_points` is an input point paired
with (the attributes of) a polygon that contains it, and an input point
appears among the located rows exactly when at least one polygon of the
reference set contains it; points contained in no polygon are
dropped. -/
theorem locate_points_containment {P G : Type _} (within : P → G → Bool)
    (points : List P) (geometries : List G) (C : ℤ) (hC : 0 < C)
    (out : List (P × G))
    (hout : locate_points within points geometries (.vInt C) = .ok out) :
    (∀ r ∈ out, r.1 ∈ points ∧ r.2 ∈ geometries ∧ within r.1 r.2 = true) ∧
    ∀ p ∈ points, (∃ g ∈ geometries, within p g = true) ↔ ∃ r ∈ out, r.1 = p := by
  by_cases hne : points = []
  · subst hne
    rw [locate_points_empty_err within geometries C hC] at hout
    exact Except.noConfusion hout
  rw [locate_points_ok within points geometries C hC hne] at hout
  cases hout
  constructor
  · intro r hr
    exact mem_do_join.1 hr
  · intro p hp
    constructor
    · rintro ⟨g, hg, hw⟩
      exact ⟨(p, g), mem_do_join.2 ⟨hp, hg, hw⟩, rfl⟩
    · rintro ⟨r, hr, rfl⟩
      obtain ⟨-, hg, hw⟩ := mem_do_join.1 hr
      exact ⟨r.2, hg, hw⟩

/-- Witness for C5 at a concrete input. -/
theorem locate_points_containment_witness :
    ((0 : ℤ) < 1 ∧
      locate_points (fun (p : ℕ) (g : ℕ) => p == g) [1, 2] [2, 3] (.vInt 1) =
        .ok [(2, 2)]) ∧
    ((∀ r ∈ [((2 : ℕ), (2 : ℕ))], r.1 ∈ [1, 2] ∧ r.2 ∈ [2, 3] ∧ (r.1 == r.2) = true) ∧
      ∀ p ∈ [1, 2], (∃ g ∈ [2, 3], (p == g) = true) ↔ ∃ r ∈ [((2 : ℕ), (2 : ℕ))], r.1 = p) := by
  have hout : locate_points (fun (p : ℕ) (g : ℕ) => p == g) [1, 2] [2, 3] (.vInt 1) =
      .ok [(2, 2)] := by
    rw [locate_points_ok (fun (p : ℕ) (g : ℕ) => p == g) [1, 2] [2, 3] 1
        (by decide) (by decide),
      show do_join (fun (p : ℕ) (g : ℕ) => p == g) [1, 2] [2, 3] = [(2, 2)] from by decide]
  exact ⟨⟨by decide, hout⟩,
    locate_points_containment (fun (p : ℕ) (g : ℕ) => p == g) [1, 2] [2, 3] 1
      (by decide) [(2, 2)] hout⟩

/-- C6: for every dataset and every chunksize `C > 0`, `_chunker`
partitions the rows into contiguous groups of at most `C` rows whose
sizes sum to the total row count, and concatenating the groups in order
reproduces the original row order exactly. -/
theorem chunker_partition {α : Type _} (df : List α) (C : ℤ) (hC : 0 < C) :
    ((_chunker C df).map List.length).sum = df.length ∧
    (∀ b ∈ _chunker C df, b.length ≤ C.toNat) ∧
    (_chunker C df).flatten = df :=
  ⟨by rw [← List.length_flatten, chunker_flatten hC],
    chunker_length_le hC df,
    chunker_flatten hC df⟩

/-- Witness for C6 at a concrete input. -/
theorem chunker_partition_witness :
    (0 : ℤ) < 2 ∧
      (((_chunker 2 [10, 20, 30]).map List.length).sum = ([10, 20, 30] : List ℕ).length ∧
      (∀ b ∈ _chunker 2 ([10, 20, 30] : List ℕ), b.length ≤ (2 : ℤ).toNat) ∧
      (_chunker 2 ([10, 20, 30] : List ℕ)).flatten = [10, 20, 30]) :=
  ⟨by decide, chunker_partition [10, 20, 30] 2 (by decide)⟩

/-! ### Helper lemmas about column selection and renaming -/

theorem lookup_eq_some_of_nodup {m : List (String × String)} {p : String × String}
    (hkeys : (m.map Prod.fst).Nodup) (hp : p ∈ m) : m.lookup p.1 = some p.2 := by
  induction m with
  | nil => simp at hp
  | cons q qs ih =>
    simp only [List.map_cons, List.nodup_cons, List.mem_map] at hkeys
    rcases List.mem_cons.1 hp with rfl | hp
    · simp [List.lookup]
    · have hne : p.1 ≠ q.1 := fun h => hkeys.1 ⟨p, hp, h⟩
      simpa [List.lookup, beq_eq_false_iff_ne.2 hne] using ih hkeys.2 hp

theorem selectCols_of_forall₂ {α : Type _} {df : List (String × α)}
    {m : List (String × String)} {vals : List α}
    (hvals : List.Forall₂ (fun p v => df.lookup p.1 = some v) m vals) :
    selectCols df (m.map Prod.fst) =
      .ok (List.zipWith (fun p v => (p.1, v)) m vals) := by
  have hall : ∀ {mm : List (String × String)} {vv : List α},
      List.Forall₂ (fun p v => df.lookup p.1 = some v) mm vv →
        (mm.map Prod.fst).all (fun k => (df.lookup k).isSome) = true := by
    intro mm vv h
    induction h with
    | nil => rfl
    | cons h1 h2 ih => simp only [List.map_cons, List.all_cons, ih, h1, Option.isSome_some,
        Bool.and_self]
  have hfm : ∀ {mm : List (String × String)} {vv : List α},
      List.Forall₂ (fun p v => df.lookup p.1 = some v) mm vv →
        (mm.map Prod.fst).filterMap (fun k => (df.lookup k).map fun v => (k, v)) =
          List.zipWith (fun p v => (p.1, v)) mm vv := by
    intro mm vv h
    induction h with
    | nil => rfl
    | cons h1 h2 ih => simp [List.filterMap_cons, h1, ih]
  rw [selectCols, if_pos (hall hvals), hfm hvals]

/-- C10: when the `columns` argument of `save_data` is a non-empty
list, no column selection happens at all and the saved/returned frame
keeps every original column unchanged (the nested `isinstance` checks
only select for a truthy value that is neither a dict nor a list). -/
theorem save_data_list_keeps_all_columns {α : Type _} (df : List (String × α))
    (ks : List String) (_hks : ks ≠ []) :
    save_data df (.list ks) = .ok df := rfl

/-- Witness for C10 at a concrete input. -/
theorem save_data_list_keeps_all_columns_witness :
    (["a"] : List String) ≠ [] ∧
      save_data [("x", (1 : ℤ)), ("y", 2)] (.list ["a"]) = .ok [("x", 1), ("y", 2)] :=
  ⟨by decide, save_data_list_keeps_all_columns [("x", 1), ("y", 2)] ["a"] (by decide)⟩

/-- C2 fails on the code: with the mapping
`{"a": "source_col1", "b": "source_col2"}`, `save_data` selects the
columns named by the dict KEYS (`"a"`, `"b"`) and renames them to the
dict VALUES, so the output columns are named `source_col1`/`source_col2`
and are populated from the source columns `a`/`b` — not the other way
around as the claim states. -/
theorem save_data_dict_counterexample :
    save_data [("a", (1 : ℤ)), ("b", 2), ("source_col1", 3), ("source_col2", 4)]
        (.dict [("a", "source_col1"), ("b", "source_col2")]) =
      .ok [("source_col1", 1), ("source_col2", 2)] ∧
    ∀ r ∈ [("source_col1", (1 : ℤ)), ("source_col2", 2)], r.1 ≠ "a" ∧ r.1 ≠ "b" :=
  ⟨rfl, by decide⟩

/-- C2 (amended): for a dataframe and a non-empty dict with distinct
keys that all name existing columns, the output of `save_data` contains
exactly one column per dict entry, in dict order, whose FINAL name is
the entry's value and whose content is the source column named by the
entry's key. -/
theorem save_data_dict_renames {α : Type _} (df : List (String × α))
    (m : List (String × String)) (vals : List α) (hm : m ≠ [])
    (hkeys : (m.map Prod.fst).Nodup)
    (hvals : List.Forall₂ (fun p v => df.lookup p.1 = some v) m vals) :
    save_data df (.dict m) = .ok (List.zipWith (fun p v => (p.2, v)) m vals) := by
  have hren : ∀ (mm : List (String × String)) (vv : List α),
      (∀ p ∈ mm, m.lookup p.1 = some p.2) →
        renameCols m (List.zipWith (fun p v => (p.1, v)) mm vv) =
          List.zipWith (fun p v => (p.2, v)) mm vv := by
    intro mm
    induction mm with
    | nil => intro vv _; simp [renameCols]
    | cons p ps ih =>
      intro vv hmem
      cases vv with
      | nil => simp [renameCols]
      | cons v vs =>
        simp only [List.zipWith_cons_cons, renameCols, List.map_cons]
        refine congrArg₂ _ ?_ (ih vs fun q hq => hmem q (List.mem_cons_of_mem _ hq))
        rw [hmem p (List.mem_cons_self p ps)]
        rfl
  have h0 : save_data df (.dict m) =
      if m.isEmpty then .ok df
      else selectCols df (m.map Prod.fst) >>= fun sel => .ok (renameCols m sel) := rfl
  rw [h0, if_neg (by simpa [List.isEmpty_iff] using hm), selectCols_of_forall₂ hvals]
  simp only [except_bind_ok]
  rw [hren m vals fun p hp => lookup_eq_some_of_nodup hkeys hp]

/-- Witness for the amended C2 at a concrete input. -/
theorem save_data_dict_renames_witness :
    ([("a", "renamed")] : List (String × String)) ≠ [] ∧
      save_data [("a", (1 : ℤ)), ("source", 5)] (.dict [("a", "renamed")]) =
        .ok [("renamed", 1)] :=
  ⟨by decide,
    save_data_dict_renames [("a", (1 : ℤ)), ("source", 5)] [("a", "renamed")] [1]
      (by decide) (by decide) (List.Forall₂.cons rfl List.Forall₂.nil)⟩

/-! ### Accuracy validation -/

theorem pyTrunc_ten_half : pyTrunc (21/2 : ℚ) = 10 := by
  rw [pyTrunc, if_neg (by norm_num)]
  norm_num

theorem validate_accuracy_ten_half : validate_accuracy (.vFloat (21/2)) = .ok 10 := by
  have h : pyInt (.vFloat (21/2)) = .ok 10 := by
    rw [show pyInt (.vFloat (21/2)) = .ok (pyTrunc (21/2)) from rfl, pyTrunc_ten_half]
  rw [validate_accuracy, h]
  exact if_pos (by decide)

/-- C4 fails on the code: `generate_grid` first applies `int()` to
`accuracy_m`, so the float `10.5` — which is not one of
`{1, 10, 100, 1000, 10000, 100000}` — is truncated to `10` and the grid
is constructed instead of a `ValueError` being raised. -/
theorem generate_grid_accuracy_counterexample :
    (generate_grid [0, 1/100000] [0, 1/100000] (.vFloat (21/2))).isOk = true ∧
    PyVal.vFloat (21/2) ∉ validAccuracies.map PyVal.vInt :=
  ⟨by simp [generate_grid, validate_accuracy_ten_half, np_min, np_max, except_bind_ok,
      except_isOk_ok],
    by decide⟩

/-- C4 (amended): on non-empty coordinate ranges, `generate_grid`
performs grid construction exactly when `int(accuracy_m)` computes a
value in `{1, 10, 100, 1000, 10000, 100000}`; otherwise — including
when `int()` itself raises — it fails with the descriptive `ValueError`
below before constructing any grid. -/
theorem generate_grid_validation (lats longs : List ℚ) (a : PyVal)
    (h1 : lats ≠ []) (h2 : longs ≠ []) :
    ((∃ n, pyInt a = .ok n ∧ n ∈ validAccuracies) →
      (generate_grid lats longs a).isOk = true) ∧
    ((∀ n, pyInt a = .ok n → n ∉ validAccuracies) →
      generate_grid lats longs a =
        .error (.valueError "accuracy_m must be one of these values: (1,10,100,1000,10000,100000)")) := by
  obtain ⟨x, xs, rfl⟩ := List.exists_cons_of_ne_nil h1
  obtain ⟨y, ys, rfl⟩ := List.exists_cons_of_ne_nil h2
  constructor
  · rintro ⟨n, hn, hmem⟩
    have hv : validate_accuracy a = .ok n := by
      rw [validate_accuracy, hn]
      exact if_pos hmem
    simp [generate_grid, hv, np_min, np_max, except_bind_ok, except_isOk_ok]
  · intro h
    have hv : validate_accuracy a =
        .error (.valueError "accuracy_m must be one of these values: (1,10,100,1000,10000,100000)") := by
      rw [validate_accuracy]
      cases hpi : pyInt a with
      | ok n => exact if_neg (h n hpi)
      | error e => rfl
    simp [generate_grid, hv, except_bind_error]

/-- Witness for the amended C4 at a concrete input. -/
theorem generate_grid_validation_witness :
    (([0, 1] : List ℚ) ≠ [] ∧
      (∃ n, pyInt (.vInt 1000) = .ok n ∧ n ∈ validAccuracies)) ∧
    (generate_grid [0, 1] [0, 1] (.vInt 1000)).isOk = true :=
  ⟨⟨by decide, ⟨1000, rfl, by decide⟩⟩,
    (generate_grid_validation [0, 1] [0, 1] (.vInt 1000) (by decide) (by decide)).1
      ⟨1000, rfl, by decide⟩⟩

/-! ### Chunksize heuristic -/

/-- C7 fails on the code: `_check_chunksize` only catches `TypeError`,
so a malformed but int-typed-convertible argument such as the string
`"abc"` makes `int()` raise `ValueError`, which propagates instead of
being silently replaced by the adaptive default. -/
theorem check_chunksize_malformed_counterexample :
    _check_chunksize (.vStr "abc") 100 =
      .error (.valueError "invalid literal for int() with base 10: abc") ∧
    ∀ z : ℤ, _check_chunksize (.vStr "abc") 100 ≠ .ok z := by
  refine ⟨rfl, fun z h => ?_⟩
  rw [show _check_chunksize (.vStr "abc") 100 =
    .error (.valueError "invalid literal for int() with base 10: abc") from rfl] at h
  exact Except.noConfusion h

/-- C7 (amended): a missing chunksize (`None`, whose `int()` conversion
raises `TypeError`) is silently replaced by the adaptive default
`min(max(N // 50, 5000), 60000)`, which always lies in
`[5000, 60000]`; but a malformed value whose `int()` conversion raises
`ValueError` (e.g. a non-numeric string) is not replaced — the error
propagates. -/
theorem check_chunksize_default (N : ℕ) :
    _check_chunksize .vNone N = .ok ((min (max (N / 50) 5000) 60000 : ℕ) : ℤ) ∧
    5000 ≤ min (max (N / 50) 5000) 60000 ∧
    min (max (N / 50) 5000) 60000 ≤ 60000 ∧
    ∀ s : String, pyStrToInt? s = none →
      _check_chunksize (.vStr s) N =
        .error (.valueError ("invalid literal for int() with base 10: " ++ s)) := by
  refine ⟨rfl, by omega, by omega, fun s hs => ?_⟩
  show (match pyInt (.vStr s) with
    | .ok n => Except.ok n
    | .error (.typeError _) => .ok ((min (max (N / 50) 5000) 60000 : ℕ) : ℤ)
    | .error e => .error e) = _
  rw [show pyInt (.vStr s) =
    .error (.valueError ("invalid literal for int() with base 10: " ++ s)) by
      rw [pyInt, hs]]

/-- Witness for the amended C7 at a concrete input. -/
theorem check_chunksize_default_witness :
    (pyStrToInt? "abc" = none) ∧
      _check_chunksize (.vStr "abc") 123456 =
        .error (.valueError ("invalid literal for int() with base 10: " ++ "abc")) :=
  ⟨by decide, (check_chunksize_default 123456).2.2.2 "abc" (by decide)⟩

/-! ### The broken pipeline entry point -/

/-- C9 fails as universally stated: with an invalid `accuracy_m` such
as `7`, `process_data` raises the `ValueError` of the grid validation
before ever reaching the `gh.check_grid` attribute lookup, so the
failure is not always an `AttributeError`. -/
theorem process_data_invalid_accuracy_counterexample :
    process_data (.vInt 7) =
      .error (.valueError "accuracy_m must be one of these values: (1,10,100,1000,10000,100000)") ∧
    process_data (.vInt 7) ≠
      .error (.attributeError "module geohelpers has no attribute check_grid") := by
  refine ⟨rfl, fun h => ?_⟩
  rw [show process_data (.vInt 7) =
    .error (.valueError "accuracy_m must be one of these values: (1,10,100,1000,10000,100000)") from rfl] at h
  simp at h

/-- C9 (amended): `process_data` never completes for any input
configuration: when `accuracy_m` passes validation it raises
`AttributeError` at the `gh.check_grid` call immediately after grid
generation (no `check_grid` is defined in geohelpers), and otherwise it
raises the validation `ValueError` even earlier; in both cases the run
never reaches the join, save or extract stages. -/
theorem process_data_always_fatal (a : PyVal) :
    (process_data a).isOk = false ∧
    ((validate_accuracy a).isOk = true →
      process_data a = .error (.attributeError "module geohelpers has no attribute check_grid")) ∧
    ((validate_accuracy a).isOk = false →
      process_data a =
        .error (.valueError "accuracy_m must be one of these values: (1,10,100,1000,10000,100000)")) := by
  have hattr : getattrGeohelpers "check_grid" =
      .error (.attributeError "module geohelpers has no attribute check_grid") := by
    unfold getattrGeohelpers
    rw [if_neg (by decide)]
    rfl
  cases hv : validate_accuracy a with
  | ok n =>
    have hrun : process_data a =
        .error (.attributeError "module geohelpers has no attribute check_grid") := by
      simp [process_data, generate_grid, hv, np_min, np_max, hattr, except_bind_ok,
        except_bind_error]
    exact ⟨by rw [hrun]; rfl, fun _ => hrun,
      fun h => by simp [hv, except_isOk_ok] at h⟩
  | error e =>
    have he : e = .valueError "accuracy_m must be one of these values: (1,10,100,1000,10000,100000)" := by
      rw [validate_accuracy] at hv
      cases hpi : pyInt a with
      | ok n =>
        rw [hpi] at hv
        have hv' : (if n ∈ validAccuracies then (Except.ok n : Except PyExc ℤ)
            else .error (.valueError
              "accuracy_m must be one of these values: (1,10,100,1000,10000,100000)")) =
            .error e := hv
        by_cases hmem : n ∈ validAccuracies
        · rw [if_pos hmem] at hv'
          exact Except.noConfusion hv'
        · rw [if_neg hmem] at hv'
          cases hv'
          rfl
      | error e' =>
        rw [hpi] at hv
        have hv' : (Except.error (PyExc.valueError
            "accuracy_m must be one of these values: (1,10,100,1000,10000,100000)") :
            Except PyExc ℤ) = .error e := hv
        cases hv'
        rfl
    subst he
    have hrun : process_data a =
        .error (.valueError "accuracy_m must be one of these values: (1,10,100,1000,10000,100000)") := by
      simp [process_data, generate_grid, hv, except_bind_error]
    exact ⟨by rw [hrun]; rfl,
      fun h => by simp [hv, except_isOk_error] at h, fun _ => hrun⟩

/-- Witness for the amended C9 at a concrete input. -/
theorem process_data_always_fatal_witness :
    ((validate_accuracy (.vInt 1000)).isOk = true) ∧
      process_data (.vInt 1000) =
        .error (.attributeError "module geohelpers has no attribute check_grid") :=
  ⟨by decide, (process_data_always_fatal (.vInt 1000)).2.1 (by decide)⟩

/-! ### Grid construction: divide and conquer versus direct product -/

theorem splitBySizes_flatten {α : Type _} (sizes : List ℕ) (l : List α) :
    (splitBySizes sizes l).flatten = l.take sizes.sum := by
  induction sizes generalizing l with
  | nil => simp [splitBySizes]
  | cons s ss ih =>
    show (l.take s :: splitBySizes ss (l.drop s)).flatten = _
    rw [List.flatten_cons, ih, List.sum_cons, List.take_add]

theorem arraySplitSizes_sum (len n : ℕ) (hn : 0 < n) :
    (arraySplitSizes len n).sum = len := by
  have hmod : len % n < n := Nat.mod_lt _ hn
  have hdm : n * (len / n) + len % n = len := Nat.div_add_mod len n
  simp only [arraySplitSizes, List.sum_append, List.sum_replicate, smul_eq_mul]
  have hsub : (n - len % n) * (len / n) = n * (len / n) - len % n * (len / n) :=
    Nat.sub_mul ..
  have hle : len % n * (len / n) ≤ n * (len / n) :=
    Nat.mul_le_mul_right _ (le_of_lt hmod)
  have hmul : len % n * (len / n + 1) = len % n * (len / n) + len % n := by ring
  omega

theorem array_split_flatten {α : Type _} (l : List α) (n : ℕ) (hn : 0 < n) :
    (array_split l n).flatten = l := by
  rw [array_split, splitBySizes_flatten, arraySplitSizes_sum _ _ hn, List.take_length]

theorem cartesian_product_append_right {α β : Type _} (a : List α) (L₁ L₂ : List β) :
    cartesian_product a (L₁ ++ L₂) = cartesian_product a L₁ ++ cartesian_product a L₂ :=
  List.flatMap_append ..

theorem cartesian_product_append_left {α β : Type _} (a b : List α) (L : List β) :
    (cartesian_product (a ++ b) L).Perm
      (cartesian_product a L ++ cartesian_product b L) := by
  induction L with
  | nil => simp [cartesian_product]
  | cons lo L' ih =>
    simp only [cartesian_product, List.flatMap_cons, List.map_append] at ih ⊢
    have hmid : ∀ (B C D : List (α × β)), (B ++ (C ++ D)).Perm (C ++ (B ++ D)) := by
      intro B C D
      have h2 := (@List.perm_append_comm _ B C).append_right D
      simpa [List.append_assoc] using h2
    refine ((List.Perm.append_left _ ih).trans ?_)
    have hmain := List.Perm.append_left (a.map fun la => (la, lo))
      (hmid (b.map fun la => (la, lo))
        (L'.flatMap fun y => a.map fun la => (la, y))
        (L'.flatMap fun y => b.map fun la => (la, y)))
    simpa [List.append_assoc] using hmain

theorem forall₂_perm_map {γ δ : Type _} (l : List γ) (f g : γ → List δ)
    (h : ∀ c ∈ l, (f c).Perm (g c)) :
    List.Forall₂ (fun x y => x.Perm y) (l.map f) (l.map g) := by
  induction l with
  | nil => simp
  | cons c cs ih =>
    exact List.Forall₂.cons (h c (List.mem_cons_self ..))
      (ih fun x hx => h x (List.mem_cons_of_mem _ hx))

theorem cartesian_product_flatten_left {α β : Type _} (chunks : List (List α))
    (L : List β) :
    ((chunks.map fun c => cartesian_product c L).flatten).Perm
      (cartesian_product chunks.flatten L) := by
  induction chunks with
  | nil => simp [cartesian_product]
  | cons c cs ih =>
    simp only [List.map_cons, List.flatten_cons, List.flatten_cons]
    exact (ih.append_left _).trans (cartesian_product_append_left c cs.flatten L).symm

theorem cartesian_product_flatten_right {α β : Type _} (a : List α)
    (chunks : List (List β)) :
    ((chunks.map fun c => cartesian_product a c).flatten) =
      cartesian_product a chunks.flatten := by
  induction chunks with
  | nil => simp [cartesian_product]
  | cons c cs ih => simp only [List.map_cons, List.flatten_cons, ih,
      ← cartesian_product_append_right]

theorem generate_smaller_grid_perm {α : Type _} (lats longs : List α) :
    (_generate_smaller_grid lats longs).Perm (cartesian_product lats longs) := by
  induction lats, longs using _generate_smaller_grid.induct with
  | case1 lats longs hmax hlt ih =>
    rw [_generate_smaller_grid, if_pos hmax, if_pos hlt,
      List.attach_map_val (array_split lats (lats.length / 100))
        fun c => _generate_smaller_grid c longs]
    have hge : 1500 ≤ lats.length := by
      rcases le_or_lt 1500 lats.length with h | h
      · exact h
      · have hban : lats.length ⊔ longs.length < 1500 := sup_lt_iff.2 ⟨h, by omega⟩
        omega
    have hn : 0 < lats.length / 100 := by omega
    refine (List.Perm.flatten_congr
        (forall₂_perm_map (array_split lats (lats.length / 100))
          (fun c => _generate_smaller_grid c longs)
          (fun c => cartesian_product c longs)
          fun c hc => ih ⟨c, hc⟩)).trans ?_
    refine (cartesian_product_flatten_left _ _).trans ?_
    rw [array_split_flatten _ _ hn]
  | case2 lats longs hmax hlt ih =>
    rw [_generate_smaller_grid, if_pos hmax, if_neg hlt,
      List.attach_map_val (array_split longs (longs.length / 100))
        fun c => _generate_smaller_grid lats c]
    have hge : 1500 ≤ longs.length := by
      rcases le_or_lt 1500 longs.length with h | h
      · exact h
      · have hban : lats.length ⊔ longs.length < 1500 := sup_lt_iff.2 ⟨by omega, h⟩
        omega
    have hn : 0 < longs.length / 100 := by omega
    refine (List.Perm.flatten_congr
        (forall₂_perm_map (array_split longs (longs.length / 100))
          (fun c => _generate_smaller_grid lats c)
          (fun c => cartesian_product lats c)
          fun c hc => ih ⟨c, hc⟩)).trans ?_
    rw [cartesian_product_flatten_right, array_split_flatten _ _ hn]
  | case3 lats longs hmax =>
    rw [_generate_smaller_grid, if_neg hmax]

/-- C3 fails on the code: on the small input `lats = [1, 2]`,
`longs = [10, 20]` (no recursion at all), the produced table is
`[(1,10), (2,10), (1,20), (2,20)]` — C-style iteration with LONGITUDE
in the outer loop — and not the latitude-outer enumeration
`[(1,10), (1,20), (2,10), (2,20)]` asserted by the claim. -/
theorem grid_row_order_counterexample :
    _generate_smaller_grid [(1 : ℤ), 2] [10, 20] = [(1, 10), (2, 10), (1, 20), (2, 20)] ∧
    _generate_smaller_grid [(1 : ℤ), 2] [10, 20] ≠
      ([1, 2].flatMap fun la => [10, 20].map fun lo => (la, lo)) := by
  constructor
  · rw [_generate_smaller_grid]
    norm_num [cartesian_product]
  · rw [_generate_smaller_grid]
    norm_num [cartesian_product]

/-- C3 (amended): `_generate_smaller_grid` is functionally equivalent to
the direct `cartesian_product` up to row multiset (the recursive result
is a permutation of the direct product; splitting the latitude axis can
reorder rows), and below the 1500-element split threshold the two agree
exactly; the direct product's row order is C-style nested iteration
with longitude in the OUTER loop and latitude in the inner loop. -/
theorem generate_smaller_grid_equiv {α : Type _} (lats longs : List α) :
    (_generate_smaller_grid lats longs).Perm (cartesian_product lats longs) ∧
    (max lats.length longs.length < 1500 →
      _generate_smaller_grid lats longs = cartesian_product lats longs) :=
  ⟨generate_smaller_grid_perm lats longs, fun h => by
    rw [_generate_smaller_grid, if_neg (by omega)]⟩

/-! ### Decimal printing: injectivity of the geokey string -/

theorem digitChar_isDigit : ∀ a < 10, (Nat.digitChar a).isDigit = true := by decide

theorem digitChar_inj :
    ∀ a < 10, ∀ b < 10, Nat.digitChar a = Nat.digitChar b → a = b := by decide

theorem toDigitsCore_eq (f : ℕ) :
    ∀ (n : ℕ) (ds : List Char), n < f →
      Nat.toDigitsCore 10 f n ds =
        (if n = 0 then ['0'] else ((Nat.digits 10 n).map Nat.digitChar).reverse) ++ ds := by
  induction f with
  | zero => intro n ds h; omega
  | succ f ih =>
    intro n ds h
    have hstep : Nat.toDigitsCore 10 (f + 1) n ds =
        if n / 10 = 0 then Nat.digitChar (n % 10) :: ds
        else Nat.toDigitsCore 10 f (n / 10) (Nat.digitChar (n % 10) :: ds) := rfl
    rw [hstep]
    by_cases h0 : n / 10 = 0
    · rw [if_pos h0]
      by_cases hn : n = 0
      · subst hn
        rw [if_pos rfl]
        rfl
      · rw [if_neg hn,
          Nat.digits_def' (by norm_num : (1 : ℕ) < 10) (Nat.pos_of_ne_zero hn), h0]
        simp
    · rw [if_neg h0]
      have hf : n / 10 < f := by omega
      rw [ih (n / 10) (Nat.digitChar (n % 10) :: ds) hf, if_neg h0,
        if_neg (by omega : ¬n = 0),
        Nat.digits_def' (by norm_num : (1 : ℕ) < 10) (by omega : 0 < n)]
      simp [List.append_assoc]

theorem nat_repr_data (n : ℕ) :
    (Nat.repr n).data =
      if n = 0 then ['0'] else ((Nat.digits 10 n).map Nat.digitChar).reverse := by
  show (Nat.toDigits 10 n).asString.data = _
  rw [show Nat.toDigits 10 n = Nat.toDigitsCore 10 (n + 1) n [] from rfl,
    toDigitsCore_eq (n + 1) n [] (Nat.lt_succ_self n), List.append_nil]
  rfl

theorem nat_repr_chars (n : ℕ) : ∀ c ∈ (Nat.repr n).data, c.isDigit = true := by
  rw [nat_repr_data]
  by_cases hn : n = 0
  · rw [if_pos hn]
    intro c hc
    simp only [List.mem_singleton] at hc
    subst hc
    decide
  · rw [if_neg hn]
    intro c hc
    rw [List.mem_reverse] at hc
    obtain ⟨d, hd, rfl⟩ := List.mem_map.1 hc
    exact digitChar_isDigit d (Nat.digits_lt_base (by norm_num) hd)

theorem nat_repr_data_ne_nil (n : ℕ) : (Nat.repr n).data ≠ [] := by
  rw [nat_repr_data]
  by_cases hn : n = 0
  · rw [if_pos hn]
    simp
  · rw [if_neg hn]
    simp [Nat.digits_ne_nil_iff_ne_zero.2 hn]

theorem map_digitChar_inj :
    ∀ (l₁ l₂ : List ℕ), (∀ x ∈ l₁, x < 10) → (∀ x ∈ l₂, x < 10) →
      l₁.map Nat.digitChar = l₂.map Nat.digitChar → l₁ = l₂ := by
  intro l₁
  induction l₁ with
  | nil =>
    intro l₂ _ _ h
    cases l₂ with
    | nil => rfl
    | cons b bs => simp at h
  | cons a as ih =>
    intro l₂ h₁ h₂ h
    cases l₂ with
    | nil => simp at h
    | cons b bs =>
      simp only [List.map_cons, List.cons.injEq] at h
      have hab : a = b :=
        digitChar_inj a (h₁ a (List.mem_cons_self a as)) b
          (h₂ b (List.mem_cons_self b bs)) h.1
      subst hab
      rw [ih bs (fun x hx => h₁ x (List.mem_cons_of_mem _ hx))
        (fun x hx => h₂ x (List.mem_cons_of_mem _ hx)) h.2]

theorem nat_repr_data_inj {m n : ℕ} (h : (Nat.repr m).data = (Nat.repr n).data) :
    m = n := by
  have hzero : ∀ k : ℕ, k ≠ 0 →
      ['0'] ≠ ((Nat.digits 10 k).map Nat.digitChar).reverse := by
    intro k hk hcontra
    have h' : (Nat.digits 10 k).map Nat.digitChar = ['0'] := by
      have := congrArg List.reverse hcontra
      simpa using this.symm
    have hd : Nat.digits 10 k = [0] :=
      map_digitChar_inj _ [0]
        (fun x hx => Nat.digits_lt_base (by norm_num) hx)
        (by intro x hx; simp only [List.mem_singleton] at hx; omega)
        (by rw [h']; rfl)
    have hof := Nat.ofDigits_digits 10 k
    rw [hd] at hof
    simp [Nat.ofDigits] at hof
    exact hk hof.symm
  rw [nat_repr_data, nat_repr_data] at h
  by_cases hm : m = 0 <;> by_cases hn : n = 0
  · rw [hm, hn]
  · rw [if_pos hm, if_neg hn] at h
    exact absurd h (hzero n hn)
  · rw [if_neg hm, if_pos hn] at h
    exact absurd h.symm (hzero m hm)
  · rw [if_neg hm, if_neg hn] at h
    have hmap : (Nat.digits 10 m).map Nat.digitChar = (Nat.digits 10 n).map Nat.digitChar := by
      have := congrArg List.reverse h
      simpa using this
    have hd := map_digitChar_inj _ _
      (fun x hx => Nat.digits_lt_base (by norm_num) hx)
      (fun x hx => Nat.digits_lt_base (by norm_num) hx) hmap
    rw [← Nat.ofDigits_digits 10 m, ← Nat.ofDigits_digits 10 n, hd]

theorem int_repr_data_negSucc (m : ℕ) :
    (Int.repr (Int.negSucc m)).data = '-' :: (Nat.repr (m + 1)).data := by
  show ("-" ++ Nat.repr (m + 1)).data = _
  rw [String.data_append, show ("-" : String).data = ['-'] from by decide]
  rfl

theorem int_repr_data_inj {z₁ z₂ : ℤ} (h : (Int.repr z₁).data = (Int.repr z₂).data) :
    z₁ = z₂ := by
  have hmixed : ∀ (m k : ℕ), (Nat.repr m).data ≠ '-' :: (Nat.repr (k + 1)).data := by
    intro m k hcontra
    cases hd : (Nat.repr m).data with
    | nil => exact nat_repr_data_ne_nil m hd
    | cons c cs =>
      rw [hd] at hcontra
      have hc : c.isDigit = true :=
        nat_repr_chars m c (by rw [hd]; exact List.mem_cons_self c cs)
      obtain ⟨h1, -⟩ := List.cons_eq_cons.1 hcontra
      rw [h1] at hc
      exact absurd hc (by decide)
  cases z₁ with
  | ofNat m =>
    cases z₂ with
    | ofNat n => exact congrArg Int.ofNat (nat_repr_data_inj h)
    | negSucc n =>
      rw [int_repr_data_negSucc] at h
      exact absurd h (hmixed m n)
  | negSucc m =>
    cases z₂ with
    | ofNat n =>
      rw [int_repr_data_negSucc] at h
      exact absurd h.symm (hmixed n m)
    | negSucc n =>
      rw [int_repr_data_negSucc, int_repr_data_negSucc] at h
      obtain ⟨-, h2⟩ := List.cons_eq_cons.1 h
      have := nat_repr_data_inj h2
      exact congrArg Int.negSucc (by omega)

theorem int_repr_no_semicolon (z : ℤ) : ';' ∉ (Int.repr z).data := by
  cases z with
  | ofNat m =>
    intro hmem
    exact absurd (nat_repr_chars m ';' hmem) (by decide)
  | negSucc m =>
    rw [int_repr_data_negSucc]
    intro hmem
    rcases List.mem_cons.1 hmem with hcase | hcase
    · exact absurd hcase (by decide)
    · exact absurd (nat_repr_chars (m + 1) ';' hcase) (by decide)

theorem append_semicolon_inj :
    ∀ (A C B D : List Char), ';' ∉ A → ';' ∉ C →
      A ++ ';' :: B = C ++ ';' :: D → A = C ∧ B = D := by
  intro A
  induction A with
  | nil =>
    intro C B D _ hC h
    cases C with
    | nil => simpa using h
    | cons c cs =>
      simp only [List.nil_append, List.cons_append, List.cons.injEq] at h
      obtain ⟨h1, -⟩ := h
      subst h1
      exact absurd (List.mem_cons_self _ _) hC
  | cons a as ih =>
    intro C B D hA hC h
    cases C with
    | nil =>
      simp only [List.nil_append, List.cons_append, List.cons.injEq] at h
      obtain ⟨h1, -⟩ := h
      subst h1
      exact absurd (List.mem_cons_self _ _) hA
    | cons c cs =>
      simp only [List.cons_append, List.cons.injEq] at h
      obtain ⟨hAC, hBD⟩ := ih cs B D (fun hm => hA (List.mem_cons_of_mem _ hm))
        (fun hm => hC (List.mem_cons_of_mem _ hm)) h.2
      exact ⟨by rw [h.1, hAC], hBD⟩

theorem key_inj {x y x' y' : ℤ}
    (h : toString x ++ ";" ++ toString y = toString x' ++ ";" ++ toString y') :
    x = x' ∧ y = y' := by
  have hd := congrArg String.data h
  rw [String.data_append, String.data_append, String.data_append, String.data_append,
    show (";" : String).data = [';'] from by decide, List.append_assoc,
    List.append_assoc] at hd
  have hsplit := append_semicolon_inj (toString x).data (toString x').data
    (toString y).data (toString y').data (int_repr_no_semicolon x)
    (int_repr_no_semicolon x') (by simpa using hd)
  exact ⟨int_repr_data_inj hsplit.1, int_repr_data_inj hsplit.2⟩

/-! ### Rounding and the geokey cell structure -/

theorem pyTrunc_intCast (z : ℤ) : pyTrunc (z : ℚ) = z := by
  rw [pyTrunc]
  by_cases h : (z : ℚ) < 0
  · rw [if_pos h, Int.ceil_intCast]
  · rw [if_neg h, Int.floor_intCast]

theorem roundTo_key_int (d : ℕ) (hd : d ≤ 5) (q : ℚ) :
    pyTrunc (roundTo d q * 100000) = roundHalfEven (q * 10 ^ d) * 10 ^ (5 - d) := by
  have hcast : roundTo d q * 100000 =
      ((roundHalfEven (q * 10 ^ d) * 10 ^ (5 - d) : ℤ) : ℚ) := by
    unfold roundTo
    have h10 : (10 : ℚ) ^ d ≠ 0 := by positivity
    have hpow : (10 : ℚ) ^ (5 - d) * 10 ^ d = 10 ^ 5 := by
      rw [← pow_add]
      congr 1
      omega
    push_cast
    rw [div_mul_eq_mul_div, div_eq_iff h10, mul_assoc, hpow]
    norm_num
  rw [hcast, pyTrunc_intCast]

/-- C8: for a valid accuracy `accuracy_m = 10 ^ e` (`e ≤ 5`, so
`accuracy_m ∈ {1, 10, 100, 1000, 10000, 100000}` and the rounding level
is `5 - log10(accuracy_m) = 5 - e`), two points receive an equal geokey
string `str(int(lat*1e5)) + ';' + str(int(long*1e5))` (computed from
the rounded coordinates) exactly when their latitudes and longitudes
round equal at `5 - e` decimal places — equal rounding cells give equal
keys, and distinct rounding cells give distinct keys (no false
collisions). -/
theorem geokey_same_cell_iff (e : ℕ) (he : e ≤ 5) (lat₁ long₁ lat₂ long₂ : ℚ) :
    (10 : ℤ) ^ e ∈ validAccuracies ∧
    (generate_key_row (5 - e) lat₁ long₁ = generate_key_row (5 - e) lat₂ long₂ ↔
      (roundTo (5 - e) lat₁ = roundTo (5 - e) lat₂ ∧
        roundTo (5 - e) long₁ = roundTo (5 - e) long₂)) := by
  refine ⟨by interval_cases e <;> decide, ?_⟩
  have hd : 5 - e ≤ 5 := by omega
  constructor
  · intro h
    unfold generate_key_row at h
    obtain ⟨h1, h2⟩ := key_inj h
    rw [roundTo_key_int _ hd, roundTo_key_int _ hd] at h1 h2
    have hpow : (10 : ℤ) ^ (5 - (5 - e)) ≠ 0 := by positivity
    have hk1 := mul_right_cancel₀ hpow h1
    have hk2 := mul_right_cancel₀ hpow h2
    constructor
    · unfold roundTo
      rw [hk1]
    · unfold roundTo
      rw [hk2]
  · rintro ⟨h1, h2⟩
    unfold generate_key_row
    rw [h1, h2]

/-- Witness for C8 at a concrete input. -/
theorem geokey_same_cell_iff_witness :
    2 ≤ 5 ∧
      ((10 : ℤ) ^ 2 ∈ validAccuracies ∧
      (generate_key_row (5 - 2) (1/4) (1/2) = generate_key_row (5 - 2) (26/100) (51/100) ↔
        (roundTo (5 - 2) (1/4 : ℚ) = roundTo (5 - 2) (26/100) ∧
          roundTo (5 - 2) (1/2 : ℚ) = roundTo (5 - 2) (51/100)))) :=
  ⟨by decide, geokey_same_cell_iff 2 (by decide) (1/4) (1/2) (26/100) (51/100)⟩

/-- Witness for the amended C3 at a concrete input. -/
theorem generate_smaller_grid_equiv_witness :
    max ([(1 : ℤ), 2] : List ℤ).length ([(10 : ℤ), 20] : List ℤ).length < 1500 ∧
      _generate_smaller_grid [(1 : ℤ), 2] [(10 : ℤ), 20] =
        cartesian_product [(1 : ℤ), 2] [(10 : ℤ), 20] :=
  ⟨by decide, (generate_smaller_grid_equiv [(1 : ℤ), 2] [(10 : ℤ), 20]).2 (by decide)⟩

end GeoLookup
